import Mathlib

/-!
Verification of the txzookeeper coordination primitives (queue.py, node.py)
against their natural-language specification.

The Python source is shallowly embedded as follows.  All code under scrutiny
runs single-threaded (Twisted reactor): during one logical call no other
callback of the same component runs, so a call is modelled as a pure state
transformer.  Concurrent interference from peer processes is represented by
the freedom of the initial state: the local entry cache of a queue may
mention nodes that are no longer present in the service tree, exactly the
situation a racing consumer produces.

The ZooKeeper service state visible to one Queue instance is the queue's
directory node: whether it exists, its children (name, payload, ephemeral
flag) and the sequence counter the service uses for SEQUENCE creates.
Paths below the directory are identified by the child name, since every
access in queue.py joins self.path with a name.  Two instrumentation fields
record externally observable behaviour: the number of completed child
listings (refills) and the child names passed to client.get (reads).
-/

/-- A child node of the queue directory: payload string and ephemeral flag
(set when the creating session's termination removes the node). -/
structure QEntry where
  data : String
  ephemeral : Bool
deriving DecidableEq, Repr

/-- Combined state of one Queue handle (queue.py fields) and of the part of
the ZooKeeper tree it touches. -/
structure QueueState where
  /-- Queue.path: path of the queue directory node (immutable). -/
  path : String
  /-- Queue.persistent: whether entries survive the creating session. -/
  persistent : Bool
  /-- service: does the queue directory node exist. -/
  dirExists : Bool
  /-- service: children of the directory, association list name to node. -/
  children : List (String × QEntry)
  /-- service: next sequence number used for SEQUENCE creates. -/
  seqCounter : Nat
  /-- Queue._cached_entries: local soft cache of child names. -/
  cached_entries : List String
  /-- instrumentation: number of completed _refill child listings. -/
  refills : Nat
  /-- instrumentation: child names passed to client.get, in call order. -/
  reads : List String
deriving DecidableEq, Repr

/-- Association-list lookup of a child by name (client.get on path/name). -/
def lookupChild : List (String × QEntry) → String → Option QEntry
  | [], _ => none
  | kv :: rest, name => if kv.1 = name then some kv.2 else lookupChild rest name

/-- Removal of a child by name (client.delete on path/name, version -1). -/
def removeChild : List (String × QEntry) → String → List (String × QEntry)
  | [], _ => []
  | kv :: rest, name => if kv.1 = name then rest else kv :: removeChild rest name

/-- Insertion step of the ascending lexicographic sort used to model
Python's list.sort() on the child-name strings. -/
def insertSorted (x : String) : List String → List String
  | [] => [x]
  | y :: ys => if x ≤ y then x :: y :: ys else y :: insertSorted x ys

/-- Ascending lexicographic sort of child names, modelling
self._cached_entries.sort() in Queue._refill. -/
def sortNames (l : List String) : List String := l.foldr insertSorted []

/-- The fixed-width suffix the ZooKeeper service appends to a SEQUENCE
create: the counter rendered as a left-zero-padded ten digit decimal. -/
def zeroPad10 (n : Nat) : String :=
  let s := toString n
  String.mk (List.replicate (10 - s.length) '0') ++ s

/-- Queue._refill with wait=False: client.get_children on the directory
(the attached child watcher only matters for later calls), then on success
replace the cache with the sorted children; on NoNode (directory gone or
never created) re-raise NoNodeException, modelled as none.  The connected
client is assumed (self.client.connected is True). -/
def refill (s : QueueState) : Option QueueState :=
  if s.dirExists then
    some { s with cached_entries := sortNames (s.children.map Prod.fst),
                  refills := s.refills + 1 }
  else
    none

/-- Which queue routine a step of the interpreter is executing: Queue._get
(wait=False) or Queue._get_item for a given child name.  A single
fuel-indexed interpreter stands in for the mutual recursion of the two
Python methods. -/
inductive QCall where
  | getCall
  | itemCall (name : String)
deriving DecidableEq, Repr

/-- Outcome of Queue._get delivered to the caller: an item, the Empty
exception, a NoNodeException that escaped every errback, or fuel
exhaustion of the interpreter (no corresponding Python outcome; used only
to make the modelled recursion total). -/
inductive GetResult where
  | ok (data : String)
  | empty
  | noNode
  | outOfFuel
deriving DecidableEq, Repr

/-- Fuel-indexed interpreter for Queue._get / Queue._get_item (wait=False),
transcribed branch by branch from queue.py:

itemCall name (Queue._get_item):
  client.get(path/name) is issued (logged in reads);
  on success the payload is returned (the tuple projection of on_success);
  on NoNodeException, on_no_node pops the LAST cached entry
  (self._cached_entries.pop()) and retries _get_item on it, or when the
  cache is exhausted restarts self._get(wait).

getCall (Queue._get):
  when the cache is empty, yield self._refill(wait) - a NoNodeException
  from the refill escapes the inlineCallbacks to the caller;
  then, not waiting, an empty cache raises Empty;
  otherwise name = self._cached_entries.pop(0) and _get_item(name) runs;
  on its success, on_success_remove deletes path/name - a successful
  delete returns the data, a NoNode delete hits on_no_node_error which
  restarts self._get; a NoNodeException failure from _get_item is likewise
  trapped by on_no_node_error and restarts self._get; any other failure
  (such as Empty from a nested restart) propagates to the caller. -/
def runQ : Nat → QCall → QueueState → GetResult × QueueState
  | 0, _, s => (GetResult.outOfFuel, s)
  | fuel + 1, QCall.itemCall name, s =>
    let s1 := { s with reads := s.reads ++ [name] }
    match lookupChild s1.children name with
    | some entry => (GetResult.ok entry.data, s1)
    | none =>
      match s1.cached_entries.getLast? with
      | some lastName =>
        runQ fuel (QCall.itemCall lastName)
          { s1 with cached_entries := s1.cached_entries.dropLast }
      | none => runQ fuel QCall.getCall s1
  | fuel + 1, QCall.getCall, s =>
    match (if s.cached_entries.isEmpty then refill s else some s) with
    | none => (GetResult.noNode, s)
    | some s1 =>
      match s1.cached_entries with
      | [] => (GetResult.empty, s1)
      | name :: rest =>
        let s2 := { s1 with cached_entries := rest }
        match runQ fuel (QCall.itemCall name) s2 with
        | (GetResult.ok data, s3) =>
          if (lookupChild s3.children name).isSome then
            (GetResult.ok data, { s3 with children := removeChild s3.children name })
          else
            runQ fuel QCall.getCall s3
        | (GetResult.noNode, s3) => runQ fuel QCall.getCall s3
        | (GetResult.empty, s3) => (GetResult.empty, s3)
        | (GetResult.outOfFuel, s3) => (GetResult.outOfFuel, s3)

/-- Queue._get with wait=False. -/
def Queue._get (fuel : Nat) (s : QueueState) : GetResult × QueueState :=
  runQ fuel QCall.getCall s

/-- Queue._get_item. -/
def Queue._get_item (fuel : Nat) (name : String) (s : QueueState) :
    GetResult × QueueState :=
  runQ fuel (QCall.itemCall name) s

/-- Queue.get: return self._get(). -/
def Queue.get (fuel : Nat) (s : QueueState) : GetResult × QueueState :=
  Queue._get fuel s

/-- Queue.get_nowait = Queue.get (class-level alias in queue.py). -/
def Queue.get_nowait (fuel : Nat) (s : QueueState) : GetResult × QueueState :=
  Queue.get fuel s

/-- A Python value handed to Queue.put: either a str or any non-string
object (isinstance(item, str) is all the code inspects). -/
inductive Item where
  | str (s : String)
  | nonStr
deriving DecidableEq, Repr

/-- Outcome of Queue.put: the created path, the ValueError raised for
non-string items, or the NoNodeException of a create whose parent
directory is absent (ZooKeeper create semantics, spec section 6). -/
inductive PutResult where
  | created (resultPath : String)
  | valueError
  | noNode
deriving DecidableEq, Repr

/-- Queue.put: raise ValueError("queue items must be strings") unless the
item is a str; otherwise client.create(path/"entry-", item, acl, flags)
with flags = SEQUENCE, or-ed with EPHEMERAL when the queue is not
persistent.  The service appends the zero-padded sequence counter to the
requested "entry-" name and returns the created path. -/
def Queue.put (item : Item) (s : QueueState) : PutResult × QueueState :=
  match item with
  | Item.nonStr => (PutResult.valueError, s)
  | Item.str data =>
    if s.dirExists then
      let name := "entry-" ++ zeroPad10 s.seqCounter
      (PutResult.created (s.path ++ "/" ++ name),
       { s with children := s.children ++ [(name, ⟨data, !s.persistent⟩)],
                seqCounter := s.seqCounter + 1 })
    else
      (PutResult.noNode, s)

/-- Outcome of Queue.qsize as observed by its caller: the child count, a
ZooKeeper NoNode failure (the shape a queue-gone error would take - the
code never produces it, client.exists returns None instead of failing), or
the unhandled Python TypeError raised when on_success evaluates
stat["numChildren"] with stat = None. -/
inductive QsizeResult where
  | count (n : Nat)
  | zkNoNodeError
  | pyTypeError
deriving DecidableEq, Repr

/-- Queue.qsize: client.exists(path) yields the stat (with numChildren)
when the directory exists and None when it does not; on_success indexes
the stat without any absence guard. -/
def Queue.qsize (s : QueueState) : QsizeResult :=
  match (if s.dirExists then some s.children.length else none) with
  | some numChildren => QsizeResult.count numChildren
  | none => QsizeResult.pyTypeError

/-!
ZNode (node.py).  The service tree a ZNode handle touches is modelled as an
association list from path to node record, plus, for get_children, the
listing the Coordination Client returns for a path (ZooKeeper specifies no
order for it, so it is part of the state rather than derived).  The
version-conditioned writes set and set_acl are logged (path, payload,
version supplied) so theorems can speak about the tokens actually issued.
-/

/-- The node metadata ZNode caches in self._node_stat. -/
structure ZNodeStat where
  version : Int
deriving DecidableEq, Repr

/-- A node in the service tree as seen through node.py operations. -/
structure ZNodeRecord where
  data : String
  version : Int
  acl : List String
deriving DecidableEq, Repr

/-- Service state for ZNode operations. -/
structure ZNodeService where
  /-- path to node record. -/
  nodes : List (String × ZNodeRecord)
  /-- path to the child listing get_children returns for it. -/
  childListings : List (String × List String)
  /-- instrumentation: (path, data, version) of every set issued. -/
  setLog : List (String × String × Int)
  /-- instrumentation: (path, acl, version) of every set_acl issued. -/
  setAclLog : List (String × List String × Int)
deriving DecidableEq, Repr

/-- Association-list lookup of a node by path. -/
def lookupNode : List (String × ZNodeRecord) → String → Option ZNodeRecord
  | [], _ => none
  | kv :: rest, p => if kv.1 = p then some kv.2 else lookupNode rest p

/-- Replace the record stored for a path. -/
def updateNode : List (String × ZNodeRecord) → String → ZNodeRecord →
    List (String × ZNodeRecord)
  | [], _, _ => []
  | kv :: rest, p, r => if kv.1 = p then (p, r) :: rest else kv :: updateNode rest p r

/-- client.exists: the stat when the path is present, None when absent
(ZooKeeper exists does not fail on absence). -/
def zkExists (svc : ZNodeService) (p : String) : Option ZNodeStat :=
  (lookupNode svc.nodes p).map (fun r => ⟨r.version⟩)

/-- Outcome of a version-conditioned service write. -/
inductive ZkWriteResult where
  | ok (stat : ZNodeStat)
  | badVersion
  | noNode
deriving DecidableEq, Repr

/-- client.set(path, data, version): NoNode when the path is absent;
BadVersion when the supplied version is neither the wildcard -1 nor the
node's current version; otherwise the data is written and the version
incremented.  The issued request is logged unconditionally. -/
def zkSet (svc : ZNodeService) (p data : String) (version : Int) :
    ZkWriteResult × ZNodeService :=
  let svc := { svc with setLog := svc.setLog ++ [(p, data, version)] }
  match lookupNode svc.nodes p with
  | none => (ZkWriteResult.noNode, svc)
  | some r =>
    if version = -1 ∨ version = r.version then
      let r1 : ZNodeRecord := { r with data := data, version := r.version + 1 }
      (ZkWriteResult.ok ⟨r.version + 1⟩,
       { svc with nodes := updateNode svc.nodes p r1 })
    else
      (ZkWriteResult.badVersion, svc)

/-- client.set_acl(path, acl, version): same version discipline as set. -/
def zkSetAcl (svc : ZNodeService) (p : String) (acl : List String) (version : Int) :
    ZkWriteResult × ZNodeService :=
  let svc := { svc with setAclLog := svc.setAclLog ++ [(p, acl, version)] }
  match lookupNode svc.nodes p with
  | none => (ZkWriteResult.noNode, svc)
  | some r =>
    if version = -1 ∨ version = r.version then
      let r1 : ZNodeRecord := { r with acl := acl, version := r.version + 1 }
      (ZkWriteResult.ok ⟨r.version + 1⟩,
       { svc with nodes := updateNode svc.nodes p r1 })
    else
      (ZkWriteResult.badVersion, svc)

/-- The in-memory ZNode handle (node.py).  The Coordination Client context
object is opaque to node.py and represented by a numeric identity. -/
structure ZNode where
  _path : String
  _name : String
  _context : Nat
  _node_stat : Option ZNodeStat
deriving DecidableEq, Repr

/-- ZNode.__init__: stores the path, derives the name as the last
path.split("/") component, keeps the context, starts with no cached stat. -/
def ZNode.init (path : String) (context : Nat) : ZNode :=
  { _path := path, _name := (path.splitOn "/").getLast!,
    _context := context, _node_stat := none }

/-- ZNode._get_version: -1 when no stat is cached, else the cached
version. -/
def ZNode._get_version (z : ZNode) : Int :=
  match z._node_stat with
  | none => -1
  | some st => st.version

/-- ZNode._on_exists_success: a None stat just returns False (the cached
stat is left as it was); a present stat is recorded and True returned. -/
def ZNode._on_exists_success (z : ZNode) (node_stat : Option ZNodeStat) :
    Bool × ZNode :=
  match node_stat with
  | none => (false, z)
  | some st => (true, { z with _node_stat := some st })

/-- ZNode.exists: client.exists(path) chained into _on_exists_success. -/
def ZNode.exists (svc : ZNodeService) (z : ZNode) : Bool × ZNode :=
  ZNode._on_exists_success z (zkExists svc z._path)

/-- Outcome of ZNode.set_data / ZNode.set_acl as the caller sees it. -/
inductive SetDataResult where
  | ok
  | badVersion
  | noNode
deriving DecidableEq, Repr

/-- ZNode.set_data: client.set(path, data, self._get_version()); the
errback _on_error_bad_version traps only BadVersionException, clears
self._node_stat and re-raises; on_success (a callback, skipped on any
failure) also clears self._node_stat and returns self. -/
def ZNode.set_data (svc : ZNodeService) (z : ZNode) (data : String) :
    SetDataResult × ZNode × ZNodeService :=
  match zkSet svc z._path data (ZNode._get_version z) with
  | (ZkWriteResult.ok _, svc1) =>
    (SetDataResult.ok, { z with _node_stat := none }, svc1)
  | (ZkWriteResult.badVersion, svc1) =>
    (SetDataResult.badVersion, { z with _node_stat := none }, svc1)
  | (ZkWriteResult.noNode, svc1) =>
    (SetDataResult.noNode, z, svc1)

/-- ZNode.set_acl: client.set_acl(path, acl, self._get_version()) with the
same BadVersion errback; no success callback touches the handle. -/
def ZNode.set_acl (svc : ZNodeService) (z : ZNode) (acl : List String) :
    SetDataResult × ZNode × ZNodeService :=
  match zkSetAcl svc z._path acl (ZNode._get_version z) with
  | (ZkWriteResult.ok _, svc1) => (SetDataResult.ok, z, svc1)
  | (ZkWriteResult.badVersion, svc1) =>
    (SetDataResult.badVersion, { z with _node_stat := none }, svc1)
  | (ZkWriteResult.noNode, svc1) => (SetDataResult.noNode, z, svc1)

/-- ZNode._on_get_children_filter_results: when a truthy prefix was given
(in Python both None and the empty string are falsy and skip the filter),
keep only names starting with it; wrap every remaining name as a fresh
handle on path/name sharing self._context. -/
def ZNode._on_get_children_filter_results (z : ZNode) (children : List String)
    (pfx : Option String) : List ZNode :=
  let children : List String :=
    match pfx with
    | some p =>
      if p ≠ "" then children.filter (fun (name : String) => name.startsWith p)
      else children
    | none => children
  children.map (fun name => ZNode.init (z._path ++ "/" ++ name) z._context)

/-- The child listing the Coordination Client returns for a path. -/
def zkChildListing (svc : ZNodeService) (p : String) : List String :=
  match svc.childListings.lookup p with
  | some l => l
  | none => []

/-- ZNode.get_children: client.get_children(path) chained into the filter
and wrap step. -/
def ZNode.get_children (svc : ZNodeService) (z : ZNode) (pfx : Option String) :
    List ZNode :=
  ZNode._on_get_children_filter_results z (zkChildListing svc z._path) pfx

/-- Modelled from the spec: the Distributed Lock implementation
(txzookeeper/lock.py) is missing from src - only its tests are present -
so the Lock data model follows spec section 3: path of the directory the
candidate nodes live under, candidate_path (the lock's own sequential
ephemeral node, absent when not held) and the locked boolean. -/
structure Lock where
  path : String
  candidate_path : Option String
  locked : Bool
deriving DecidableEq, Repr

/-- Modelled from the spec: the service state a Lock touches - the live
candidate node names under the lock directory and the sequence counter
the service uses for sequential creates. -/
structure LockService where
  children : List String
  seqCounter : Nat
deriving DecidableEq, Repr

/-- Modelled from the spec: outcome of Lock.acquire.  wouldWait stands for
the suspension of a candidate that is not lowest-ranked and registers a
watch on its predecessor; the waiting itself is not representable in a
sequential model. -/
inductive AcquireResult where
  | acquired
  | alreadyHeld
  | wouldWait
deriving DecidableEq, Repr

/-- Modelled from the spec: outcome of Lock.release. -/
inductive ReleaseResult where
  | released
  | notHeld
deriving DecidableEq, Repr

/-- Modelled from the spec (section 4.3 acquire): fail immediately with
AlreadyHeld when locked is already true for this handle; otherwise create
a sequential ephemeral candidate node under path, list the children and
determine the candidate's rank by sequence suffix - lowest rank holds the
lock at once, any other rank watches its predecessor and suspends. -/
def Lock.acquire (svc : LockService) (l : Lock) :
    AcquireResult × Lock × LockService :=
  if l.locked then (AcquireResult.alreadyHeld, l, svc)
  else
    let name := "lock-" ++ zeroPad10 svc.seqCounter
    let svc1 : LockService := ⟨svc.children ++ [name], svc.seqCounter + 1⟩
    if (sortNames svc1.children).head? = some name then
      (AcquireResult.acquired,
       { l with locked := true, candidate_path := some name }, svc1)
    else
      (AcquireResult.wouldWait, { l with candidate_path := some name }, svc1)

/-- Modelled from the spec (section 4.3 release): fail with NotHeld when
locked is false; otherwise delete the candidate node and clear the held
state, leaving the handle reusable. -/
def Lock.release (svc : LockService) (l : Lock) :
    ReleaseResult × Lock × LockService :=
  if !l.locked then (ReleaseResult.notHeld, l, svc)
  else
    let svc1 : LockService :=
      ⟨match l.candidate_path with
        | some n => svc.children.filter (fun c => c != n)
        | none => svc.children,
       svc.seqCounter⟩
    (ReleaseResult.released,
     { l with locked := false, candidate_path := none }, svc1)

/-- A queue state exhibiting the consumed-by-a-peer race: the local cache
still lists entry-0000000000, but only entry-0000000001 (payload B) and
entry-0000000002 (payload C) remain in the service tree. -/
def c1state : QueueState :=
  { path := "/q", persistent := false, dirExists := true,
    children := [("entry-0000000001", ⟨"B", true⟩),
                 ("entry-0000000002", ⟨"C", true⟩)],
    seqCounter := 3,
    cached_entries := ["entry-0000000000", "entry-0000000001",
                       "entry-0000000002"],
    refills := 0, reads := [] }

/-!
Theorems.  Helper lemmas come first, then one theorem per specification
claim (with witnesses for hypotheses and counterexamples where the claim
fails on the code).
-/

/-- Helper: every string starts with the empty string, so Python's skipped
filter for a falsy "" prefix coincides extensionally with filtering. -/
theorem string_startsWith_empty (s : String) : s.startsWith "" = true := by
  simp [String.startsWith, String.toSubstring, Substring.take, Substring.beq,
        Substring.extract, BEq.beq, Substring.toString, Substring.nextn,
        Substring.bsize, String.substrEq, String.substrEq.loop, String.endPos,
        String.utf8ByteSize]

/-- Helper: a successful refill presupposes the directory node and replaces
the cache with the sorted child names, counting one refill. -/
theorem refill_some (s s1 : QueueState) (h : refill s = some s1) :
    s.dirExists = true ∧
    s1 = { s with cached_entries := sortNames (s.children.map Prod.fst),
                  refills := s.refills + 1 } := by
  cases hd : s.dirExists with
  | false => simp [refill, hd] at h
  | true =>
    refine ⟨rfl, ?_⟩
    simp only [refill, hd, if_true] at h
    exact (Option.some.inj h).symm

/-- C2: for every string item, put(item) on a queue handle over a directory
that then contains only the entry put created returns the created path, and
a following get() returns exactly that item while deleting the entry's node
before it returns. -/
theorem queue_put_get_roundtrip (item p : String) (prs : Bool) (n rf : Nat)
    (rd : List String) :
    (Queue.put (Item.str item) ⟨p, prs, true, [], n, [], rf, rd⟩).1
        = PutResult.created (p ++ "/" ++ ("entry-" ++ zeroPad10 n)) ∧
    (Queue.get 3 (Queue.put (Item.str item) ⟨p, prs, true, [], n, [], rf, rd⟩).2).1
        = GetResult.ok item ∧
    (Queue.get 3 (Queue.put (Item.str item) ⟨p, prs, true, [], n, [], rf, rd⟩).2).2.children
        = [] := by
  refine ⟨rfl, ?_, ?_⟩ <;>
    simp [Queue.get, Queue._get, Queue.put, runQ, refill, sortNames, insertSorted,
          lookupChild, removeChild]

/-- C3: get()/get_nowait() on a queue whose directory has no children (and
whose cache is empty) performs exactly one synchronous refill and then
fails with Empty - the wait=False path contains no suspension, the call
returns at once for every fuel bound above one. -/
theorem queue_getnowait_empty_refills_once (f : Nat) (p : String) (prs : Bool)
    (n rf : Nat) (rd : List String) :
    Queue.get_nowait (f + 1) ⟨p, prs, true, [], n, [], rf, rd⟩
      = (GetResult.empty, ⟨p, prs, true, [], n, [], rf + 1, rd⟩) := by
  simp [Queue.get_nowait, Queue.get, Queue._get, runQ, refill, sortNames]

/-- C7: put with a non-string item raises ValueError at once, creating no
node; put with a string creates, under the directory, a child named with
the entry- prefix plus the zero-padded server sequence suffix, ephemeral
exactly when the queue is not persistent. -/
theorem queue_put_typecheck_and_create (s : QueueState) (d : String) :
    Queue.put Item.nonStr s = (PutResult.valueError, s) ∧
    (s.dirExists = true →
      Queue.put (Item.str d) s =
        (PutResult.created (s.path ++ "/" ++ ("entry-" ++ zeroPad10 s.seqCounter)),
         { s with
            children := s.children ++ [("entry-" ++ zeroPad10 s.seqCounter, ⟨d, !s.persistent⟩)],
            seqCounter := s.seqCounter + 1 })) := by
  refine ⟨rfl, fun h => ?_⟩
  simp [Queue.put, h]

/-- Witness for queue_put_typecheck_and_create at a concrete queue state. -/
theorem queue_put_typecheck_and_create_witness :
    Queue.put Item.nonStr ⟨"/q", false, true, [], 0, [], 0, []⟩
        = (PutResult.valueError, ⟨"/q", false, true, [], 0, [], 0, []⟩) ∧
    Queue.put (Item.str "x") ⟨"/q", false, true, [], 0, [], 0, []⟩
        = (PutResult.created ("/q" ++ "/" ++ ("entry-" ++ zeroPad10 0)),
           ⟨"/q", false, true, [("entry-" ++ zeroPad10 0, ⟨"x", true⟩)], 1, [], 0, []⟩) :=
  ⟨(queue_put_typecheck_and_create ⟨"/q", false, true, [], 0, [], 0, []⟩ "x").1,
   (queue_put_typecheck_and_create ⟨"/q", false, true, [], 0, [], 0, []⟩ "x").2 rfl⟩

/-- C10: qsize yields the child count only under the precondition that the
queue directory exists; when it is absent the unguarded stat["numChildren"]
indexing of a None stat makes the operation end in the unhandled Python
TypeError - neither an integer nor a NoNode (queue-gone) failure. -/
theorem queue_qsize_unguarded_stat (s : QueueState) :
    (s.dirExists = true → Queue.qsize s = QsizeResult.count s.children.length) ∧
    (s.dirExists = false →
      Queue.qsize s = QsizeResult.pyTypeError ∧
      (∀ m, Queue.qsize s ≠ QsizeResult.count m) ∧
      Queue.qsize s ≠ QsizeResult.zkNoNodeError) := by
  constructor
  · intro h; simp [Queue.qsize, h]
  · intro h; simp [Queue.qsize, h]

/-- Witness for queue_qsize_unguarded_stat at concrete states with and
without the directory node. -/
theorem queue_qsize_unguarded_stat_witness :
    Queue.qsize ⟨"/q", false, true, [("entry-0000000000", ⟨"x", true⟩)], 1, [], 0, []⟩
        = QsizeResult.count 1 ∧
    Queue.qsize ⟨"/q", false, false, [], 0, [], 0, []⟩ = QsizeResult.pyTypeError :=
  ⟨(queue_qsize_unguarded_stat ⟨"/q", false, true, [("entry-0000000000", ⟨"x", true⟩)], 1, [], 0, []⟩).1 rfl,
   ((queue_qsize_unguarded_stat ⟨"/q", false, false, [], 0, [], 0, []⟩).2 rfl).1⟩

/-- C4 (amended): exists() returns true and records the node's stat in the
handle when the path is present; when the path is absent it returns false
and leaves any previously cached metadata unchanged (the None branch of
_on_exists_success returns without touching self._node_stat). -/
theorem znode_exists_records_metadata (svc : ZNodeService) (z : ZNode) :
    (∀ st, zkExists svc z._path = some st →
        ZNode.exists svc z = (true, { z with _node_stat := some st })) ∧
    (zkExists svc z._path = none → ZNode.exists svc z = (false, z)) := by
  constructor
  · intro st h; simp [ZNode.exists, ZNode._on_exists_success, h]
  · intro h; simp [ZNode.exists, ZNode._on_exists_success, h]

/-- Counterexample to C4 as stated: a handle holding a cached stat of
version 3 for an absent path - exists() returns false but the cached
metadata is not cleared. -/
theorem znode_exists_absent_keeps_stat_cex :
    ZNode.exists ⟨[], [], [], []⟩ ⟨"/a", "a", 7, some ⟨3⟩⟩
        = (false, ⟨"/a", "a", 7, some ⟨3⟩⟩) ∧
    (ZNode.mk "/a" "a" 7 (some ⟨3⟩))._node_stat ≠ none := by
  decide

/-- Witness for znode_exists_records_metadata at concrete service states
with and without the node. -/
theorem znode_exists_records_metadata_witness :
    ZNode.exists ⟨[("/a", ⟨"d", 4, []⟩)], [], [], []⟩ (ZNode.init "/a" 1)
        = (true, { ZNode.init "/a" 1 with _node_stat := some ⟨4⟩ }) ∧
    ZNode.exists ⟨[], [], [], []⟩ (ZNode.init "/a" 1) = (false, ZNode.init "/a" 1) :=
  ⟨(znode_exists_records_metadata ⟨[("/a", ⟨"d", 4, []⟩)], [], [], []⟩ (ZNode.init "/a" 1)).1 ⟨4⟩ rfl,
   (znode_exists_records_metadata ⟨[], [], [], []⟩ (ZNode.init "/a" 1)).2 rfl⟩

/-- C5 (amended): for every child listing returned by the client,
get_children keeps the listing's own order (no re-sort by name), filters -
when a prefix is given - to exactly the children whose name starts with it
(for the falsy empty prefix Python skips the filter, which coincides with
filtering since every name starts with ""), and wraps each remaining name
as a fresh handle on parent-path/name sharing the same client context. -/
theorem znode_get_children_wraps_client_order (z : ZNode) (children : List String)
    (pfx : Option String) :
    ZNode._on_get_children_filter_results z children pfx
      = (children.filter (fun name =>
            match pfx with
            | some p => name.startsWith p
            | none => true)).map
          (fun name => ZNode.init (z._path ++ "/" ++ name) z._context) := by
  cases pfx with
  | none => simp [ZNode._on_get_children_filter_results]
  | some p =>
    by_cases hp : p = ""
    · subst hp
      simp [ZNode._on_get_children_filter_results, string_startsWith_empty]
    · simp [ZNode._on_get_children_filter_results, hp]

/-- Counterexample to C5 as stated: the client listing ["b", "a"] is
returned wrapped in that same order, although ordering by name would put
/q/a before /q/b. -/
theorem znode_get_children_not_sorted_cex :
    (ZNode._on_get_children_filter_results (ZNode.init "/q" 0) ["b", "a"] none).map
        ZNode._path = ["/q/b", "/q/a"] ∧
    ("/q/a" : String) < "/q/b" := by
  constructor
  · rfl
  · rw [String.lt_iff_toList_lt]; decide

/-- C6: set_data issues its conditional write with the last-observed
version as token (-1, the no-constraint wildcard, when none was observed);
on BadVersion it clears the cached version state and surfaces the conflict
without retrying - exactly one set is issued and the tree is unchanged;
and against a present node the conflict happens exactly when a cached,
non-wildcard version differs from the node's current version. -/
theorem znode_set_data_version_token (svc : ZNodeService) (z : ZNode)
    (data : String) :
    ((ZNode.set_data svc z data).2.2.setLog
        = svc.setLog ++ [(z._path, data, ZNode._get_version z)]) ∧
    (z._node_stat = none → ZNode._get_version z = -1) ∧
    (∀ st, z._node_stat = some st → ZNode._get_version z = st.version) ∧
    ((ZNode.set_data svc z data).1 = SetDataResult.badVersion →
        (ZNode.set_data svc z data).2.1._node_stat = none ∧
        (ZNode.set_data svc z data).2.2.nodes = svc.nodes) ∧
    (∀ r, lookupNode svc.nodes z._path = some r →
        ((ZNode.set_data svc z data).1 = SetDataResult.badVersion ↔
          (ZNode._get_version z ≠ -1 ∧ ZNode._get_version z ≠ r.version))) := by
  refine ⟨?_, ?_, ?_, ?_, ?_⟩
  · simp only [ZNode.set_data, zkSet]
    cases h : lookupNode svc.nodes z._path with
    | none => simp
    | some r => by_cases hv : ZNode._get_version z = -1 ∨ ZNode._get_version z = r.version <;>
        simp [hv]
  · intro h; simp [ZNode._get_version, h]
  · intro st h; simp [ZNode._get_version, h]
  · simp only [ZNode.set_data, zkSet]
    cases h : lookupNode svc.nodes z._path with
    | none => simp
    | some r => by_cases hv : ZNode._get_version z = -1 ∨ ZNode._get_version z = r.version <;>
        simp [hv]
  · intro r h
    simp only [ZNode.set_data, zkSet, h]
    by_cases hv : ZNode._get_version z = -1 ∨ ZNode._get_version z = r.version
    · simp [hv]; tauto
    · simp [hv]; tauto

/-- Witness for znode_set_data_version_token: a handle caching stale
version 3 against a node at version 5 - the write is issued with token 3,
comes back BadVersion, the cached stat is cleared and the tree unchanged. -/
theorem znode_set_data_version_token_witness :
    ((ZNode.set_data ⟨[("/a", ⟨"d", 5, []⟩)], [], [], []⟩ ⟨"/a", "a", 0, some ⟨3⟩⟩ "new").2.2.setLog
        = [("/a", "new", 3)]) ∧
    ((ZNode.set_data ⟨[("/a", ⟨"d", 5, []⟩)], [], [], []⟩ ⟨"/a", "a", 0, some ⟨3⟩⟩ "new").2.1._node_stat
        = none) ∧
    ((ZNode.set_data ⟨[("/a", ⟨"d", 5, []⟩)], [], [], []⟩ ⟨"/a", "a", 0, some ⟨3⟩⟩ "new").2.2.nodes
        = [("/a", ⟨"d", 5, []⟩)]) ∧
    ((ZNode.set_data ⟨[("/a", ⟨"d", 5, []⟩)], [], [], []⟩ ⟨"/a", "a", 0, some ⟨3⟩⟩ "new").1
        = SetDataResult.badVersion ↔ ((3 : Int) ≠ -1 ∧ (3 : Int) ≠ 5)) :=
  ⟨(znode_set_data_version_token ⟨[("/a", ⟨"d", 5, []⟩)], [], [], []⟩ ⟨"/a", "a", 0, some ⟨3⟩⟩ "new").1,
   ((znode_set_data_version_token ⟨[("/a", ⟨"d", 5, []⟩)], [], [], []⟩ ⟨"/a", "a", 0, some ⟨3⟩⟩ "new").2.2.2.1 rfl).1,
   ((znode_set_data_version_token ⟨[("/a", ⟨"d", 5, []⟩)], [], [], []⟩ ⟨"/a", "a", 0, some ⟨3⟩⟩ "new").2.2.2.1 rfl).2,
   (znode_set_data_version_token ⟨[("/a", ⟨"d", 5, []⟩)], [], [], []⟩ ⟨"/a", "a", 0, some ⟨3⟩⟩ "new").2.2.2.2 ⟨"d", 5, []⟩ rfl⟩

/-- C9: a successful set_data clears the cached stat, so the version the
service acknowledged is never recorded: the handle's next conditioned
write - another set_data or a set_acl - is issued with the wildcard -1
rather than with the version of the write just performed. -/
theorem znode_set_data_clears_version (svc : ZNodeService) (z : ZNode)
    (data data2 : String) (acl : List String) :
    (ZNode.set_data svc z data).1 = SetDataResult.ok →
      ((ZNode.set_data svc z data).2.1._node_stat = none ∧
       ZNode._get_version (ZNode.set_data svc z data).2.1 = -1 ∧
       (ZNode.set_data (ZNode.set_data svc z data).2.2
           (ZNode.set_data svc z data).2.1 data2).2.2.setLog
         = (ZNode.set_data svc z data).2.2.setLog ++ [(z._path, data2, -1)] ∧
       (ZNode.set_acl (ZNode.set_data svc z data).2.2
           (ZNode.set_data svc z data).2.1 acl).2.2.setAclLog
         = (ZNode.set_data svc z data).2.2.setAclLog ++ [(z._path, acl, -1)]) := by
  intro hok
  have hz : (ZNode.set_data svc z data).2.1 = { z with _node_stat := none } := by
    simp only [ZNode.set_data, zkSet] at hok ⊢
    cases h : lookupNode svc.nodes z._path with
    | none => simp [h] at hok
    | some r =>
      by_cases hv : ZNode._get_version z = -1 ∨ ZNode._get_version z = r.version
      · simp [h, hv]
      · simp [h, hv] at hok
  have keySet : ∀ svc1 : ZNodeService,
      (ZNode.set_data svc1 ({ z with _node_stat := none }) data2).2.2.setLog
        = svc1.setLog ++ [(z._path, data2, -1)] := by
    intro svc1
    simp only [ZNode.set_data, zkSet, ZNode._get_version]
    cases h : lookupNode svc1.nodes z._path with
    | none => simp [h]
    | some r => simp [h]
  have keyAcl : ∀ svc1 : ZNodeService,
      (ZNode.set_acl svc1 ({ z with _node_stat := none }) acl).2.2.setAclLog
        = svc1.setAclLog ++ [(z._path, acl, -1)] := by
    intro svc1
    simp only [ZNode.set_acl, zkSetAcl, ZNode._get_version]
    cases h : lookupNode svc1.nodes z._path with
    | none => simp [h]
    | some r => simp [h]
  exact ⟨by rw [hz], by rw [hz]; rfl, by rw [hz]; exact keySet _, by rw [hz]; exact keyAcl _⟩

/-- Witness for znode_set_data_clears_version: a fresh handle writing twice
- the first write succeeds with the wildcard, the second is again issued
with -1 and not with the acknowledged version 1. -/
theorem znode_set_data_clears_version_witness :
    (ZNode.set_data ⟨[("/a", ⟨"d", 0, []⟩)], [], [], []⟩ (ZNode.init "/a" 0) "v1").2.1._node_stat
        = none ∧
    (ZNode.set_data
        (ZNode.set_data ⟨[("/a", ⟨"d", 0, []⟩)], [], [], []⟩ (ZNode.init "/a" 0) "v1").2.2
        (ZNode.set_data ⟨[("/a", ⟨"d", 0, []⟩)], [], [], []⟩ (ZNode.init "/a" 0) "v1").2.1
        "v2").2.2.setLog
      = (ZNode.set_data ⟨[("/a", ⟨"d", 0, []⟩)], [], [], []⟩ (ZNode.init "/a" 0) "v1").2.2.setLog
          ++ [("/a", "v2", -1)] :=
  ⟨(znode_set_data_clears_version ⟨[("/a", ⟨"d", 0, []⟩)], [], [], []⟩ (ZNode.init "/a" 0) "v1" "v2" [] rfl).1,
   (znode_set_data_clears_version ⟨[("/a", ⟨"d", 0, []⟩)], [], [], []⟩ (ZNode.init "/a" 0) "v1" "v2" [] rfl).2.2.1⟩

/-- C8: acquire on a handle whose locked flag is already true fails
immediately with AlreadyHeld, and release on a handle whose locked flag is
false fails with NotHeld; in both cases handle and service tree are
returned unchanged.  (Lock is modelled from the spec - see Lock above.) -/
theorem lock_misuse_guards (svc : LockService) (l : Lock) :
    (l.locked = true → Lock.acquire svc l = (AcquireResult.alreadyHeld, l, svc)) ∧
    (l.locked = false → Lock.release svc l = (ReleaseResult.notHeld, l, svc)) := by
  constructor
  · intro h; simp [Lock.acquire, h]
  · intro h; simp [Lock.release, h]

/-- Witness for lock_misuse_guards at concrete held and idle handles. -/
theorem lock_misuse_guards_witness :
    Lock.acquire ⟨["lock-0000000000"], 1⟩ ⟨"/l", some "lock-0000000000", true⟩
        = (AcquireResult.alreadyHeld, ⟨"/l", some "lock-0000000000", true⟩, ⟨["lock-0000000000"], 1⟩) ∧
    Lock.release ⟨[], 0⟩ ⟨"/l", none, false⟩
        = (ReleaseResult.notHeld, ⟨"/l", none, false⟩, ⟨[], 0⟩) :=
  ⟨(lock_misuse_guards ⟨["lock-0000000000"], 1⟩ ⟨"/l", some "lock-0000000000", true⟩).1 rfl,
   (lock_misuse_guards ⟨[], 0⟩ ⟨"/l", none, false⟩).2 rfl⟩

/-- Helper: one step of the interpreter relates the output state to the
input state of the same call (projection form of runQ equations). -/
theorem runQ_dirExists_preserved (fuel : Nat) :
    ∀ c s, ((runQ fuel c s).2).dirExists = s.dirExists := by
  induction fuel with
  | zero => intro c s; rfl
  | succ fuel ih =>
    intro c s
    cases c with
    | itemCall name =>
      simp only [runQ]
      split
      · rfl
      · split
        · rw [ih]
        · rw [ih]
    | getCall =>
      simp only [runQ]
      split
      · rfl
      · rename_i s1 hs1
        have hd1 : s1.dirExists = s.dirExists := by
          by_cases hc : s.cached_entries.isEmpty
          · rw [if_pos hc] at hs1
            rcases refill_some s s1 hs1 with ⟨hd, rfl⟩
            rfl
          · rw [if_neg hc] at hs1
            cases hs1; rfl
        split
        · exact hd1
        · rename_i name rest hcc
          split
          · rename_i data s3 heq
            have h2 := ih (QCall.itemCall name) ({ s1 with cached_entries := rest })
            rw [heq] at h2
            split
            · exact h2.trans hd1
            · rw [ih]; exact h2.trans hd1
          · rename_i s3 heq
            have h2 := ih (QCall.itemCall name) ({ s1 with cached_entries := rest })
            rw [heq] at h2
            rw [ih]; exact h2.trans hd1
          · rename_i s3 heq
            have h2 := ih (QCall.itemCall name) ({ s1 with cached_entries := rest })
            rw [heq] at h2
            exact h2.trans hd1
          · rename_i s3 heq
            have h2 := ih (QCall.itemCall name) ({ s1 with cached_entries := rest })
            rw [heq] at h2
            exact h2.trans hd1

/-- Helper: directory existence carried from a completed run to its output
state, in the form convenient for rewriting along a run equation. -/
theorem runQ_snd_dirExists (fuel : Nat) (c : QCall) (s : QueueState)
    (r : GetResult) (s' : QueueState) (h : runQ fuel c s = (r, s')) :
    s'.dirExists = s.dirExists := by
  have h1 := runQ_dirExists_preserved fuel c s
  rw [h] at h1
  exact h1

/-- Helper: while the queue directory exists, no NoNodeException reaches
the caller of _get / _get_item for any fuel bound - every NoNode from a
get or delete on a vanished entry is trapped and turned into a fallback
read, a restart, or an eventual ok/Empty. -/
theorem runQ_no_noNode (fuel : Nat) :
    ∀ c s, s.dirExists = true → (runQ fuel c s).1 ≠ GetResult.noNode := by
  induction fuel with
  | zero => intro c s _ h; exact GetResult.noConfusion h
  | succ fuel ih =>
    intro c s hd
    cases c with
    | itemCall name =>
      simp only [runQ]
      split
      · intro h; exact GetResult.noConfusion h
      · split
        · exact ih _ _ hd
        · exact ih _ _ hd
    | getCall =>
      simp only [runQ]
      split
      · rename_i hnone
        exfalso
        by_cases hc : s.cached_entries.isEmpty
        · rw [if_pos hc] at hnone
          simp [refill, hd] at hnone
        · rw [if_neg hc] at hnone
          exact Option.noConfusion hnone
      · rename_i s1 hs1
        have hd1 : s1.dirExists = true := by
          by_cases hc : s.cached_entries.isEmpty
          · rw [if_pos hc] at hs1
            rcases refill_some s s1 hs1 with ⟨_, rfl⟩
            exact hd
          · rw [if_neg hc] at hs1
            cases hs1; exact hd
        split
        · intro h; exact GetResult.noConfusion h
        · rename_i name rest hcc
          split
          · rename_i data s3 heq
            have h2 := ih (QCall.itemCall name) ({ s1 with cached_entries := rest })
            have h3 := runQ_snd_dirExists fuel (QCall.itemCall name)
              ({ s1 with cached_entries := rest }) (GetResult.ok data) s3 heq
            split
            · intro h; exact GetResult.noConfusion h
            · exact ih QCall.getCall s3 (h3.trans hd1)
          · rename_i s3 heq
            have h3 := runQ_snd_dirExists fuel (QCall.itemCall name)
              ({ s1 with cached_entries := rest }) GetResult.noNode s3 heq
            exact ih QCall.getCall s3 (h3.trans hd1)
          · intro h; exact GetResult.noConfusion h
          · intro h; exact GetResult.noConfusion h

/-- Helper: a run only appends to the instrumentation log of issued child
reads. -/
theorem runQ_reads_mono (fuel : Nat) :
    ∀ c s, ∃ t, (runQ fuel c s).2.reads = s.reads ++ t := by
  induction fuel with
  | zero => intro c s; exact ⟨[], by simp [runQ]⟩
  | succ fuel ih =>
    intro c s
    cases c with
    | itemCall name =>
      simp only [runQ]
      split
      · exact ⟨[name], rfl⟩
      · split
        · obtain ⟨t, ht⟩ := ih (QCall.itemCall _) _
          refine ⟨[name] ++ t, ?_⟩
          rw [ht]
          simp
        · obtain ⟨t, ht⟩ := ih QCall.getCall _
          refine ⟨[name] ++ t, ?_⟩
          rw [ht]
          simp
    | getCall =>
      simp only [runQ]
      split
      · exact ⟨[], by simp⟩
      · rename_i s1 hs1
        have hr1 : s1.reads = s.reads := by
          by_cases hc : s.cached_entries.isEmpty
          · rw [if_pos hc] at hs1
            rcases refill_some s s1 hs1 with ⟨_, rfl⟩
            rfl
          · rw [if_neg hc] at hs1
            cases hs1; rfl
        split
        · exact ⟨[], by simp [hr1]⟩
        · rename_i name rest hcc
          split
          · rename_i data s3 heq
            split
            · obtain ⟨t, ht⟩ := ih (QCall.itemCall name) ({ s1 with cached_entries := rest })
              rw [heq] at ht
              exact ⟨t, by simpa [hr1] using ht⟩
            · obtain ⟨t1, ht1⟩ := ih (QCall.itemCall name) ({ s1 with cached_entries := rest })
              rw [heq] at ht1
              obtain ⟨t2, ht2⟩ := ih QCall.getCall s3
              refine ⟨t1 ++ t2, ?_⟩
              rw [ht2, ht1]
              simp [hr1]
          · rename_i s3 heq
            obtain ⟨t1, ht1⟩ := ih (QCall.itemCall name) ({ s1 with cached_entries := rest })
            rw [heq] at ht1
            obtain ⟨t2, ht2⟩ := ih QCall.getCall s3
            refine ⟨t1 ++ t2, ?_⟩
            rw [ht2, ht1]
            simp [hr1]
          · rename_i s3 heq
            obtain ⟨t1, ht1⟩ := ih (QCall.itemCall name) ({ s1 with cached_entries := rest })
            rw [heq] at ht1
            exact ⟨t1, by simpa [hr1] using ht1⟩
          · rename_i s3 heq
            obtain ⟨t1, ht1⟩ := ih (QCall.itemCall name) ({ s1 with cached_entries := rest })
            rw [heq] at ht1
            exact ⟨t1, by simpa [hr1] using ht1⟩

/-- Helper: an item fetch first logs its own read, then possibly others. -/
theorem runQ_item_logs (fuel : Nat) (name : String) (s : QueueState) :
    ∃ t, (runQ (fuel + 1) (QCall.itemCall name) s).2.reads
      = s.reads ++ [name] ++ t := by
  simp only [runQ]
  split
  · exact ⟨[], by simp⟩
  · split
    · obtain ⟨t, ht⟩ := runQ_reads_mono fuel (QCall.itemCall _) _
      exact ⟨t, by rw [ht]⟩
    · obtain ⟨t, ht⟩ := runQ_reads_mono fuel QCall.getCall _
      exact ⟨t, by rw [ht]⟩

/-- C1 (amended): when a cached entry's node is found already deleted the
caller never receives the NoNode error.  While the directory exists no
run of _get/_get_nowait ever surfaces NoNode (first conjunct); after a
failed read the fallback continues with the HIGHEST-sequence remaining
cached entry - _get_item pops from the end of the cache - not the lowest
(second conjunct: the read logged right after the miss on name is the last
cache element); with the cache exhausted the failed read falls through to
a full restart of the retrieval, whose first step is a refill (third
conjunct); and a failed delete likewise restarts the full retrieval
(fourth conjunct, where the restart does pop the lowest remaining name). -/
theorem queue_get_race_not_surfaced (f : Nat) (s : QueueState) (name c : String)
    (cs rest : List String) (data : String) (s3 : QueueState) :
    (∀ fuel, s.dirExists = true →
        (Queue.get fuel s).1 ≠ GetResult.noNode) ∧
    (lookupChild s.children name = none → s.cached_entries = cs ++ [c] →
        ∃ t, (runQ (f + 1 + 1) (QCall.itemCall name) s).2.reads
          = (s.reads ++ [name, c]) ++ t) ∧
    (lookupChild s.children name = none → s.cached_entries = [] →
        runQ (f + 1) (QCall.itemCall name) s
          = runQ f QCall.getCall ({ s with reads := s.reads ++ [name] })) ∧
    (s.cached_entries = name :: rest →
        runQ f (QCall.itemCall name) ({ s with cached_entries := rest })
          = (GetResult.ok data, s3) →
        lookupChild s3.children name = none →
        runQ (f + 1) QCall.getCall s = runQ f QCall.getCall s3) := by
  refine ⟨?_, ?_, ?_, ?_⟩
  · intro fuel hd
    exact runQ_no_noNode fuel QCall.getCall s hd
  · intro h1 h2
    simp only [runQ, h1, h2, List.getLast?_concat, List.dropLast_concat]
    cases hl2 : lookupChild s.children c with
    | some entry =>
      refine ⟨[], ?_⟩
      simp [hl2]
    | none =>
      cases hg2 : List.getLast? cs with
      | some lastName =>
        obtain ⟨t, ht⟩ := runQ_reads_mono f (QCall.itemCall lastName) _
        refine ⟨t, ?_⟩
        simp only [hl2, hg2]
        rw [ht]
        simp
      | none =>
        obtain ⟨t, ht⟩ := runQ_reads_mono f QCall.getCall _
        refine ⟨t, ?_⟩
        simp only [hl2, hg2]
        rw [ht]
        simp
  · intro h1 h2
    simp only [runQ, h1, h2, List.getLast?_nil]
  · intro h1 h2 h3
    obtain ⟨p, prs, dx, ch, n, ce, rf, rd⟩ := s
    dsimp only at h1 h2
    subst h1
    simp only [runQ]
    simp [h2, h3]

/-- Counterexample to C1 as stated: on c1state the first cached name
entry-0000000000 is found deleted while the cache still holds
entry-0000000001 and entry-0000000002, both present in the service; the
very next read is entry-0000000002 - the highest-sequence remaining
entry, popped from the end of the cache - although entry-0000000001 is
the lowest-sequence remaining entry.  The caller ends up with payload B
only after a further failed delete and restart. -/
theorem queue_get_race_fallback_cex :
    (runQ 6 QCall.getCall c1state).1 = GetResult.ok "B" ∧
    (runQ 6 QCall.getCall c1state).2.reads
        = ["entry-0000000000", "entry-0000000002", "entry-0000000001"] ∧
    ("entry-0000000001" : String) < "entry-0000000002" := by
  refine ⟨rfl, rfl, ?_⟩
  rw [String.lt_iff_toList_lt]
  decide

/-- Witness for queue_get_race_not_surfaced at the concrete race state:
no NoNode for the fuel-6 retrieval; the fallback after the miss on
entry-0000000000 reads entry-0000000002 next; an empty-cache miss
restarts the full retrieval; and the failed delete of entry-0000000000
restarts the retrieval from the fallback's end state. -/
theorem queue_get_race_not_surfaced_witness :
    (Queue.get 6 c1state).1 ≠ GetResult.noNode ∧
    (∃ t, (runQ (5 + 1 + 1) (QCall.itemCall "entry-0000000000") c1state).2.reads
        = (c1state.reads ++ ["entry-0000000000", "entry-0000000002"]) ++ t) ∧
    (runQ (5 + 1) (QCall.itemCall "entry-0000000000")
        ({ c1state with cached_entries := [] })
      = runQ 5 QCall.getCall
          ({ c1state with
             cached_entries := [],
             reads := c1state.reads ++ ["entry-0000000000"] })) ∧
    (runQ (5 + 1) QCall.getCall c1state
      = runQ 5 QCall.getCall
          ⟨"/q", false, true,
           [("entry-0000000001", ⟨"B", true⟩), ("entry-0000000002", ⟨"C", true⟩)],
           3, ["entry-0000000001"], 0,
           ["entry-0000000000", "entry-0000000002"]⟩) :=
  ⟨(queue_get_race_not_surfaced 5 c1state "entry-0000000000" "entry-0000000002"
      ["entry-0000000000", "entry-0000000001"] ["entry-0000000001", "entry-0000000002"]
      "C" ⟨"/q", false, true,
           [("entry-0000000001", ⟨"B", true⟩), ("entry-0000000002", ⟨"C", true⟩)],
           3, ["entry-0000000001"], 0,
           ["entry-0000000000", "entry-0000000002"]⟩).1 6 rfl,
   (queue_get_race_not_surfaced 5 c1state "entry-0000000000" "entry-0000000002"
      ["entry-0000000000", "entry-0000000001"] ["entry-0000000001", "entry-0000000002"]
      "C" ⟨"/q", false, true,
           [("entry-0000000001", ⟨"B", true⟩), ("entry-0000000002", ⟨"C", true⟩)],
           3, ["entry-0000000001"], 0,
           ["entry-0000000000", "entry-0000000002"]⟩).2.1 rfl rfl,
   (queue_get_race_not_surfaced 5 ({ c1state with cached_entries := [] })
      "entry-0000000000" "entry-0000000002" [] [] "C"
      ⟨"/q", false, true, [], 0, [], 0, []⟩).2.2.1 rfl rfl,
   (queue_get_race_not_surfaced 5 c1state "entry-0000000000" "entry-0000000002"
      ["entry-0000000000", "entry-0000000001"] ["entry-0000000001", "entry-0000000002"]
      "C" ⟨"/q", false, true,
           [("entry-0000000001", ⟨"B", true⟩), ("entry-0000000002", ⟨"C", true⟩)],
           3, ["entry-0000000001"], 0,
           ["entry-0000000000", "entry-0000000002"]⟩).2.2.2 rfl rfl rfl⟩
